import Mathlib

/-!
Shallow embedding of the tag-vocabulary consistency engine of the
Better-Image-Tag plugin (src/main.ts, src/settings.ts).

Strings are modelled through their character lists; the JavaScript regular
expressions used by the plugin are translated into explicit character-list
matchers with the exact same semantics on the character classes involved
(`\w` is `[A-Za-z0-9_]`, the tag-body class is `[a-zA-Z0-9_-]`, `\b` is a
word/non-word transition, `\s` is whitespace).  JavaScript string order
(used by `Array.prototype.sort()` and modelling `localeCompare`) is the
lexicographic order on the character list.
-/

/-- The character class `\w` of JavaScript regular expressions. -/
def isWordChar (c : Char) : Bool := c.isAlphanum || c == '_'

/-- The tag-body character class `[a-zA-Z0-9_-]` used by the scanner. -/
def isTagChar (c : Char) : Bool := c.isAlphanum || c == '_' || c == '-'

/-- JavaScript `String.prototype.trim()`: drop whitespace at both ends. -/
def jsTrim (s : String) : String :=
  ⟨((s.data.dropWhile Char.isWhitespace).reverse.dropWhile Char.isWhitespace).reverse⟩

/-- JavaScript `String.prototype.toLowerCase()` (ASCII letters). -/
def jsToLower (s : String) : String := ⟨s.data.map Char.toLower⟩

/-- JavaScript `String.prototype.startsWith`. -/
def jsStartsWith (s p : String) : Bool := p.data.isPrefixOf s.data

/-- Substring test on character lists (JavaScript `String.prototype.includes`). -/
def charsContains (needle : List Char) : List Char → Bool
  | [] => needle.isEmpty
  | c :: t => needle.isPrefixOf (c :: t) || charsContains needle t

/-- JavaScript `String.prototype.includes`. -/
def jsIncludes (s sub : String) : Bool := charsContains sub.data s.data

/-- The marker alternative `(#|\-\s)` of the rename/delete pattern in
`TagManagerView.EditTag` and `TagManagerView.removeTagFromAllFiles`
(src/main.ts lines 560 and 770): either `#`, or `-` followed by one
whitespace character.  Returns the matched marker and the remainder. -/
def markerAt : List Char → Option (List Char × List Char)
  | '#' :: rest => some (['#'], rest)
  | '-' :: c :: rest => if c.isWhitespace then some (['-', c], rest) else none
  | _ => none

/-- The word-boundary assertion `\b` placed right after the tag body: the
character before the position and the character after it (absent characters
count as non-word) must differ in word-character-ness. -/
def boundaryAfter (prev : Char) : List Char → Bool
  | [] => isWordChar prev
  | c :: _ => isWordChar prev != isWordChar c

/-- One attempted match of `(#|\-\s)tag\b` at the head of the list: marker,
then the literal tag, then a word boundary.  Returns the marker and the
remainder after the tag. -/
def matchTagAt (tag : List Char) (l : List Char) : Option (List Char × List Char) :=
  match markerAt l with
  | none => none
  | some (mk, rest) =>
    if tag.isPrefixOf rest then
      let rest2 := rest.drop tag.length
      let prev := tag.getLastD (mk.getLastD ' ')
      if boundaryAfter prev rest2 then some (mk, rest2) else none
    else none

/-- Global (`g`-flag) replacement of `(#|\-\s)tag\b`: scan left to right,
replace each non-overlapping match by `repl marker`, resuming after the
match; advance one character where no match starts.  The fuel argument is
the length of the list, enough for the scan. -/
def replaceTagAux (tag : List Char) (repl : List Char → List Char) :
    Nat → List Char → List Char
  | 0, l => l
  | _ + 1, [] => []
  | fuel + 1, c :: rest =>
    match matchTagAt tag (c :: rest) with
    | some (mk, remaining) => repl mk ++ replaceTagAux tag repl fuel remaining
    | none => c :: replaceTagAux tag repl fuel rest

/-- The text rewrite of `TagManagerView.EditTag` (src/main.ts lines 560-563):
`content.replace(new RegExp("(#|\\-\\s)" + tag + "\\b", "g"), "$1" + edit)` --
every marker-prefixed occurrence of `tag` at a word boundary is replaced,
keeping the marker and substituting the new tag body. -/
def editTagContent (tag edit content : String) : String :=
  ⟨replaceTagAux tag.data (fun mk => mk ++ edit.data) content.data.length content.data⟩

/-- The inline removal step of `TagManagerView.removeTagFromAllFiles`
(src/main.ts lines 770-771): the same pattern replaced by the empty string,
removing marker and tag body together. -/
def deleteTagInline (tag content : String) : String :=
  ⟨replaceTagAux tag.data (fun _ => []) content.data.length content.data⟩

/-- Greedy `[a-zA-Z0-9_-]+` at the head of the list: the matched body and
the remainder. -/
def takeTagBody : List Char → List Char × List Char
  | [] => ([], [])
  | c :: rest =>
    if isTagChar c then
      let p := takeTagBody rest
      (c :: p.1, p.2)
    else ([], c :: rest)

/-- All matches of the scanner's inline pattern `(?:#|-\s)([a-zA-Z0-9_-]+)`
(src/main.ts line 167) with the `g` flag: bodies of the non-overlapping
matches found left to right. -/
def inlineMatchesAux : Nat → List Char → List (List Char)
  | 0, _ => []
  | _ + 1, [] => []
  | fuel + 1, c :: rest =>
    match markerAt (c :: rest) with
    | some (_, r) =>
      match takeTagBody r with
      | ([], _) => inlineMatchesAux fuel rest
      | (body, r2) => body :: inlineMatchesAux fuel r2
    | none => inlineMatchesAux fuel rest

/-- Cleaning of one inline match (src/main.ts line 170): strip the marker
(already done by the matcher), lower-case, trim. -/
def cleanInline (body : String) : String := jsTrim (jsToLower body)

/-- Lazy group `([\s\S]*?)` stopped by the first `]` (scanner front-matter
pattern): the characters before the first `]`, or failure if there is none. -/
def bracketGroupLazy : Nat → List Char → Option (List Char)
  | 0, _ => none
  | _ + 1, [] => none
  | fuel + 1, c :: rest =>
    if c == ']' then some [] else (bracketGroupLazy fuel rest).map (c :: ·)

/-- One attempted match of the scanner pattern `tags:\s*\[([\s\S]*?)\]`
(src/main.ts line 179) at the head of the list. -/
def fmGroupHere (l : List Char) : Option (List Char) :=
  if ['t', 'a', 'g', 's', ':'].isPrefixOf l then
    match (l.drop 5).dropWhile Char.isWhitespace with
    | '[' :: r2 => bracketGroupLazy r2.length r2
    | _ => none
  else none

/-- Leftmost match of the scanner front-matter pattern anywhere in the text
(the pattern is not anchored). -/
def fmGroupSearch : Nat → List Char → Option (List Char)
  | 0, _ => none
  | _ + 1, [] => none
  | fuel + 1, c :: rest =>
    match fmGroupHere (c :: rest) with
    | some g => some g
    | none => fmGroupSearch fuel rest

/-- JavaScript `String.prototype.split` with a single-character separator. -/
def splitOnCharAux (sep : Char) : List Char → List Char → List (List Char)
  | [], acc => [acc.reverse]
  | c :: rest, acc =>
    if c == sep then acc.reverse :: splitOnCharAux sep rest []
    else splitOnCharAux sep rest (c :: acc)

/-- JavaScript `String.prototype.split` with a single-character separator. -/
def splitOnChar (sep : Char) (l : List Char) : List (List Char) := splitOnCharAux sep l []

/-- JavaScript `replace(/["']/g, "")`: remove every double or single quote. -/
def quoteStrip (s : String) : String :=
  ⟨s.data.filter (fun c => !(c == Char.ofNat 34 || c == Char.ofNat 39))⟩

/-- Front-matter tag candidates of one document in the scanner
(src/main.ts lines 179-188): group of the first `tags:\s*\[...\]` match,
split on commas, each entry trimmed, quote-stripped and lower-cased,
entries of length at most one discarded.  An empty group yields nothing
(the code `continue`s on it). -/
def fmEntries (content : String) : List String :=
  match fmGroupSearch content.data.length content.data with
  | none => []
  | some g =>
    if g.isEmpty then []
    else
      ((splitOnChar ',' g).map (fun cs => jsToLower (quoteStrip (jsTrim ⟨cs⟩)))).filter
        (fun t => decide (t.length > 1))

/-- Insertion into a JavaScript `Set` modelled as a duplicate-free list in
insertion order. -/
def insertUniq (l : List String) (t : String) : List String :=
  if l.contains t then l else l ++ [t]

/-- Processing of one readable document inside `scanForExistingTags`
(src/main.ts lines 164-188): add the cleaned inline matches that are
non-empty and longer than one character, then the front-matter entries,
to the accumulated set of found tags. -/
def scanDocInto (acc : List String) (content : String) : List String :=
  let inl := ((inlineMatchesAux content.data.length content.data).map
      (fun b => cleanInline ⟨b⟩)).filter (fun t => !(t == "") && decide (t.length > 1))
  (fmEntries content).foldl insertUniq (inl.foldl insertUniq acc)

/-- The document loop of `ImageTagPlugin.scanForExistingTags` (src/main.ts
lines 162-193).  A document is `some content` when its read succeeds and
`none` when the read throws; the `catch` branch skips the document and the
loop continues. -/
def scanFound (docs : List (Option String)) : List String :=
  docs.foldl (fun acc d => match d with | none => acc | some c => scanDocInto acc c) []

/-- `DEFAULT_SETTINGS.tags` from src/settings.ts. -/
def defaultTags : List String :=
  ["landscape", "portrait", "digital-art", "traditional",
   "character-design", "concept-art", "reference", "texture",
   "environment", "illustration", "sketch", "painting",
   "photo", "ui-design", "icon", "logo"]

/-- `[...new Set(array)]`: deduplication keeping first occurrences. -/
def dedupStrings (l : List String) : List String := l.foldl insertUniq []

/-- JavaScript string order (code-unit lexicographic), the default
comparison of `Array.prototype.sort()` on strings. -/
def strLe (a b : String) : Prop := a.data ≤ b.data

instance : DecidableRel strLe := fun a b => inferInstanceAs (Decidable (a.data ≤ b.data))

/-- `Array.prototype.sort()` on strings. -/
def sortStrings (l : List String) : List String := List.insertionSort strLe l

/-- `ImageTagPlugin.scanForExistingTags` (src/main.ts lines 156-229).
Returns the `newTags` result together with the vocabulary after the
operation: when new tags were found and the user confirmed the merge, the
settings become the sorted deduplication of `DEFAULT_SETTINGS.tags`
followed by the new tags (src/main.ts lines 213-219); otherwise the
vocabulary is left as it was. -/
def scanForExistingTags (docs : List (Option String)) (vocab : List String) (merge : Bool) :
    List String × List String :=
  let newTags := (scanFound docs).filter (fun t => !(vocab.contains t))
  (newTags,
    if newTags.isEmpty then vocab
    else if merge then sortStrings (dedupStrings (defaultTags ++ newTags))
    else vocab)

/-- Result of the claimed case-insensitive filter, following the
specification's words for the scan result ("case-insensitive compare
against existing tags"), for comparison with `scanForExistingTags`. -/
def specNewTagsCI (docs : List (Option String)) (vocab : List String) : List String :=
  (scanFound docs).filter (fun t => !(vocab.any (fun v => jsToLower v == jsToLower t)))

/-- `ImageTagPlugin.addNewTag` (src/main.ts lines 103-112) acting on the
vocabulary list: trim and lower-case, reject the empty result, reject a
tag already included, otherwise push. -/
def addNewTag (tag : String) (tags : List String) : Bool × List String :=
  let cleanTag := jsToLower (jsTrim tag)
  if cleanTag = "" then (false, tags)
  else if tags.contains cleanTag then (false, tags)
  else (true, tags ++ [cleanTag])

/-- `ImageTagPlugin.removeTag` (src/main.ts lines 114-122): splice out the
first occurrence found by `indexOf`, if any. -/
def removeTag (tag : String) (tags : List String) : Bool × List String :=
  if tags.contains tag then (true, tags.erase tag) else (false, tags)

/-- The lazy close of the anchored front-matter pattern
`^---\n([\s\S]*?)\n---` used by the delete path (src/main.ts line 778):
split the text at the first occurrence of `"\n---"`, returning the part
before it and the part after the `"\n---"`. -/
def fmCloseSplitAux : Nat → List Char → Option (List Char × List Char)
  | 0, _ => none
  | _ + 1, [] => none
  | fuel + 1, c :: rest =>
    if ['\n', '-', '-', '-'].isPrefixOf (c :: rest) then some ([], rest.drop 3)
    else (fmCloseSplitAux fuel rest).map (fun p => (c :: p.1, p.2))

/-- Match of `^---\n([\s\S]*?)\n---` at the start of the text: the group
(the front-matter body) and the remainder after the closing `---`. -/
def fmSplit (content : List Char) : Option (List Char × List Char) :=
  if ['-', '-', '-', '\n'].isPrefixOf content then
    fmCloseSplitAux (content.drop 4).length (content.drop 4)
  else none

/-- One attempted match of the per-line pattern `tags:\s*\[(.*)\]`
(src/main.ts line 787) at the head of the list: the greedy group runs to
the last `]` of the line. -/
def tagsBracketHere (l : List Char) : Option (List Char) :=
  if ['t', 'a', 'g', 's', ':'].isPrefixOf l then
    match (l.drop 5).dropWhile Char.isWhitespace with
    | '[' :: r2 =>
      let rev := r2.reverse
      if rev.contains ']' then some (((rev.dropWhile (fun c => !(c == ']'))).drop 1).reverse)
      else none
    | _ => none
  else none

/-- Leftmost match of `tags:\s*\[(.*)\]` in a line. -/
def tagsBracketSearch : Nat → List Char → Option (List Char)
  | 0, _ => none
  | _ + 1, [] => none
  | fuel + 1, c :: rest =>
    match tagsBracketHere (c :: rest) with
    | some g => some g
    | none => tagsBracketSearch fuel rest

/-- The line loop of `TagManagerView.removeTagFromAllFiles` over the
front-matter lines (src/main.ts lines 784-808).  Returns the rebuilt lines
and whether the `modified` flag was set by this loop.  A `tags:` line whose
bracket group is non-empty is re-serialized with the target tag filtered
out and sets the flag (even when the filter removed nothing); a `tags:`
line with an empty group is skipped by `continue` and therefore dropped
from the rebuilt lines without setting the flag; other lines are kept. -/
def processFmLines (tag : String) : List String → List String × Bool
  | [] => ([], false)
  | line :: rest =>
    let p := processFmLines tag rest
    if jsStartsWith line "tags:" then
      match tagsBracketSearch line.data.length line.data with
      | some g =>
        if g.isEmpty then p
        else
          let entries := (splitOnChar ',' g).map (fun cs => quoteStrip (jsTrim ⟨cs⟩))
          let kept := entries.filter (fun t => !(t == tag))
          let newLine :=
            if kept.isEmpty then "tags: []"
            else "tags: [" ++ String.intercalate ", "
              (kept.map (fun t => "\x22" ++ t ++ "\x22")) ++ "]"
          (newLine :: p.1, true)
      | none => (line :: p.1, p.2)
    else (line :: p.1, p.2)

/-- The per-document body of `TagManagerView.removeTagFromAllFiles`
(src/main.ts lines 764-818): remove inline occurrences, then rewrite the
front-matter `tags:` line, tracking the shared `modified` flag; the result
is the flag (the document is written back exactly when it is `true`)
together with the final text. -/
def removeTagFromFile (tag content : String) : Bool × String :=
  let c1 := deleteTagInline tag content
  let modified1 := !(c1 == content)
  match fmSplit c1.data with
  | some (body, rest) =>
    if body.isEmpty then (modified1, c1)
    else
      let lines := (splitOnChar '\n' body).map (fun cs => (⟨cs⟩ : String))
      let p := processFmLines tag lines
      if modified1 || p.2 then
        (true, "---\n" ++ String.intercalate "\n" p.1 ++ "\n---" ++ (⟨rest⟩ : String))
      else (false, c1)
  | none => (modified1, c1)

/-- The file loop of `TagManagerView.removeTagFromAllFiles`: each
document's text after the delete pass. -/
def removeTagFromAllFiles (tag : String) (docs : List String) : List String :=
  docs.map (fun c => (removeTagFromFile tag c).2)

/-- `TagManagerView.handleTagDeletion` (src/main.ts lines 735-759) acting
on the vocabulary and the document texts: the documents are rewritten only
when `removeTag` reported success. -/
def handleTagDeletion (tag : String) (vocab : List String) (docs : List String) :
    List String × List String :=
  let r := removeTag tag vocab
  if r.1 then (r.2, removeTagFromAllFiles tag docs) else (r.2, docs)

/-- `TagManagerView.calculateRelevanceScore` (src/main.ts lines 874-890):
1000 for an exact match, else 100 for a query-prefixed name, else 10 for a
name containing the query, else 0, plus `min count 5`. -/
def calculateRelevanceScore (tagName searchTerm : String) (count : Nat) : Nat :=
  (if tagName = searchTerm then 1000
   else if jsStartsWith tagName searchTerm then 100
   else if jsIncludes tagName searchTerm then 10
   else 0) + min count 5

/-- The order decided by the comparator of `TagManagerView.sortByRelevance`
on the triple (score, count, lower-cased name): higher score first, then
higher count, then smaller name. -/
def lexLe (x y : Nat × Nat × List Char) : Prop :=
  y.1 < x.1 ∨ (x.1 = y.1 ∧ (y.2.1 < x.2.1 ∨ (x.2.1 = y.2.1 ∧ x.2.2 ≤ y.2.2)))

instance : ∀ x y, Decidable (lexLe x y) := fun x y => by unfold lexLe; infer_instance

instance : IsTrans (Nat × Nat × List Char) lexLe := by
  constructor
  intro x y z hxy hyz
  obtain ⟨x1, x2, x3⟩ := x
  obtain ⟨y1, y2, y3⟩ := y
  obtain ⟨z1, z2, z3⟩ := z
  unfold lexLe at *
  simp only at *
  rcases hxy with h1 | ⟨e1, h1⟩ <;> rcases hyz with h2 | ⟨e2, h2⟩
  · exact Or.inl (by omega)
  · exact Or.inl (by omega)
  · exact Or.inl (by omega)
  · rcases h1 with hc1 | ⟨ec1, hn1⟩ <;> rcases h2 with hc2 | ⟨ec2, hn2⟩
    · exact Or.inr ⟨by omega, Or.inl (by omega)⟩
    · exact Or.inr ⟨by omega, Or.inl (by omega)⟩
    · exact Or.inr ⟨by omega, Or.inl (by omega)⟩
    · exact Or.inr ⟨by omega, Or.inr ⟨by omega, le_trans hn1 hn2⟩⟩

instance : IsTotal (Nat × Nat × List Char) lexLe := by
  constructor
  intro x y
  obtain ⟨x1, x2, x3⟩ := x
  obtain ⟨y1, y2, y3⟩ := y
  unfold lexLe
  simp only
  rcases Nat.lt_trichotomy y1 x1 with h1 | h1 | h1
  · exact Or.inl (Or.inl h1)
  · rcases Nat.lt_trichotomy y2 x2 with h2 | h2 | h2
    · exact Or.inl (Or.inr ⟨h1.symm, Or.inl h2⟩)
    · rcases le_total x3 y3 with h3 | h3
      · exact Or.inl (Or.inr ⟨h1.symm, Or.inr ⟨h2.symm, h3⟩⟩)
      · exact Or.inr (Or.inr ⟨h1, Or.inr ⟨h2, h3⟩⟩)
    · exact Or.inr (Or.inr ⟨h1, Or.inl h2⟩)
  · exact Or.inr (Or.inl h1)

/-- The sort key of one item inside `sortByRelevance` (src/main.ts lines
856-865): the comparator lower-cases the name once and uses the score over
the lower-cased name, the count, and the lower-cased name. -/
def relKey (q : String) (a : String × Nat) : Nat × Nat × List Char :=
  (calculateRelevanceScore (jsToLower a.1) q a.2, a.2, (jsToLower a.1).data)

/-- The comparator of `TagManagerView.sortByRelevance` as a relation:
descending score, ties by descending count, then ascending name. -/
def relLe (q : String) (a b : String × Nat) : Prop := lexLe (relKey q a) (relKey q b)

instance (q : String) : DecidableRel (relLe q) := fun a b => by unfold relLe; infer_instance

instance (q : String) : IsTrans (String × Nat) (relLe q) := by
  constructor
  intro a b c hab hbc
  exact IsTrans.trans (relKey q a) (relKey q b) (relKey q c) hab hbc

instance (q : String) : IsTotal (String × Nat) (relLe q) := by
  constructor
  intro a b
  exact IsTotal.total (relKey q a) (relKey q b)

/-- `TagManagerView.sortByRelevance` (src/main.ts lines 852-871): the items
sorted by the comparator, the query lower-cased once up front. -/
def sortByRelevance (searchTerm : String) (items : List (String × Nat)) :
    List (String × Nat) :=
  List.insertionSort (relLe (jsToLower searchTerm)) items

/-- The comparator of `TagManagerView.sortByName` (ascending name). -/
def nameLe (a b : String × Nat) : Prop := a.1.data ≤ b.1.data

instance : DecidableRel nameLe := fun a b => inferInstanceAs (Decidable (a.1.data ≤ b.1.data))

/-- `TagManagerView.sortByName` (src/main.ts lines 827-833). -/
def sortByName (items : List (String × Nat)) : List (String × Nat) :=
  List.insertionSort nameLe items

/-- The comparator of `TagManagerView.sortByCount` (descending count, ties
by ascending name). -/
def countLe (a b : String × Nat) : Prop := b.2 < a.2 ∨ (a.2 = b.2 ∧ a.1.data ≤ b.1.data)

instance : DecidableRel countLe := fun a b => by unfold countLe; infer_instance

/-- `TagManagerView.sortByCount` (src/main.ts lines 836-849). -/
def sortByCount (items : List (String × Nat)) : List (String × Nat) :=
  List.insertionSort countLe items

/-- The three sort modes of `TagManagerView.sortTags`. -/
inductive SortKind
  | byName
  | byCount
  | byRelevance

/-- `TagManagerView.sortTags` (src/main.ts lines 616-640): the `relevance`
case falls back to the name sort when the optional search term is absent or
empty (a falsy `searchTerm`). -/
def sortTags (k : SortKind) (searchTerm : Option String) (items : List (String × Nat)) :
    List (String × Nat) :=
  match k with
  | SortKind.byName => sortByName items
  | SortKind.byCount => sortByCount items
  | SortKind.byRelevance =>
    match searchTerm with
    | some s => if s = "" then sortByName items else sortByRelevance s items
    | none => sortByName items

/-! Helper lemmas -/

/-- The scan's document fold ignores unreadable documents. -/
theorem scanFound_skips_unreadable (docs : List (Option String)) :
    scanFound docs = scanFound ((docs.filterMap id).map some) := by
  unfold scanFound
  have key : ∀ (ds : List (Option String)) (acc : List String),
      ds.foldl (fun acc d => match d with | none => acc | some c => scanDocInto acc c) acc
        = ((ds.filterMap id).map some).foldl
            (fun acc d => match d with | none => acc | some c => scanDocInto acc c) acc := by
    intro ds
    induction ds with
    | nil => intro acc; rfl
    | cons d rest ih =>
      intro acc
      cases d with
      | none => simpa [List.filterMap_cons] using ih acc
      | some c => simpa [List.filterMap_cons] using ih (scanDocInto acc c)
  exact key docs []

/-! Claim theorems -/

/-- C1: the claim states that `EditTag` rewrites only marker-prefixed
whole-word occurrences, so that renaming `art` to `artwork` leaves
`#art-style` unchanged while rewriting a standalone `#art`.  The code's
`\b` assertion holds between `t` and `-` (a hyphen is not a word
character), so the pattern does match inside `#art-style` and the code
rewrites it to `#artwork-style`; the standalone occurrence and a
word-character continuation such as `#artistic` behave as the claim says. -/
theorem editTagContent_art_style_rewritten :
    editTagContent "art" "artwork" "#art-style" = "#artwork-style" ∧
    editTagContent "art" "artwork" "a #art b" = "a #artwork b" ∧
    editTagContent "art" "artwork" "#artistic" = "#artistic" := by decide

/-- C2: the claim states that a scan never removes a vocabulary tag.  The
merge branch rebuilds the vocabulary from `DEFAULT_SETTINGS.tags` plus the
newly found tags instead of the current vocabulary, so a user tag such as
`zebra` that is neither a default tag nor newly discovered is dropped. -/
theorem scanMerge_drops_vocab_tag :
    (scanForExistingTags [some "#hello"] ["zebra"] true).1 = ["hello"] ∧
    "zebra" ∈ (["zebra"] : List String) ∧
    "zebra" ∉ (scanForExistingTags [some "#hello"] ["zebra"] true).2 := by decide

/-- C3: when `addNewTag t` succeeds, the trimmed lower-cased form of `t` is
in the vocabulary exactly once, a second identical call fails and leaves
the vocabulary unchanged, and a tag that trims to the empty string is
rejected with no state change. -/
theorem addNewTag_spec (t : String) (vocab : List String) :
    ((addNewTag t vocab).1 = true →
      (addNewTag t vocab).2.count (jsToLower (jsTrim t)) = 1 ∧
      addNewTag t (addNewTag t vocab).2 = (false, (addNewTag t vocab).2)) ∧
    (jsTrim t = "" → addNewTag t vocab = (false, vocab)) := by
  constructor
  · intro h
    by_cases h0 : jsToLower (jsTrim t) = ""
    · exfalso
      unfold addNewTag at h
      simp [h0] at h
    · by_cases h1 : jsToLower (jsTrim t) ∈ vocab
      · exfalso
        unfold addNewTag at h
        simp [h0, h1] at h
      · have hres : addNewTag t vocab = (true, vocab ++ [jsToLower (jsTrim t)]) := by
          unfold addNewTag
          simp [h0, h1]
        rw [hres]
        constructor
        · show (vocab ++ [jsToLower (jsTrim t)]).count (jsToLower (jsTrim t)) = 1
          rw [List.count_append]
          rw [List.count_eq_zero.mpr h1]
          simp
        · unfold addNewTag
          have hm : jsToLower (jsTrim t) ∈ vocab ++ [jsToLower (jsTrim t)] := by simp
          simp [h0, hm]
  · intro h
    have h0 : jsToLower (jsTrim t) = "" := by rw [h]; rfl
    unfold addNewTag
    simp [h0]

/-- C3 witness: the theorem applied at `" Foo "` over the empty vocabulary
and at a blank tag over `["x"]`. -/
theorem addNewTag_spec_witness :
    ((addNewTag " Foo " []).2.count (jsToLower (jsTrim " Foo ")) = 1 ∧
      addNewTag " Foo " (addNewTag " Foo " []).2 = (false, (addNewTag " Foo " []).2)) ∧
    addNewTag "  " ["x"] = (false, ["x"]) :=
  ⟨(addNewTag_spec " Foo " []).1 (by decide), (addNewTag_spec "  " ["x"]).2 (by decide)⟩

/-- C4: `removeTag` on a present tag succeeds and removes exactly one
entry; on an absent tag it fails and leaves the vocabulary unchanged. -/
theorem removeTag_spec (t : String) (vocab : List String) :
    (t ∈ vocab →
      (removeTag t vocab).1 = true ∧
      (removeTag t vocab).2.length + 1 = vocab.length ∧
      (removeTag t vocab).2.count t + 1 = vocab.count t) ∧
    (t ∉ vocab → removeTag t vocab = (false, vocab)) := by
  constructor
  · intro h
    have hres : removeTag t vocab = (true, vocab.erase t) := by
      unfold removeTag
      simp [h]
    rw [hres]
    refine ⟨rfl, ?_, ?_⟩
    · show (vocab.erase t).length + 1 = vocab.length
      have h1 := List.length_erase_of_mem h
      have h2 : 0 < vocab.length := List.length_pos_of_mem h
      omega
    · show (vocab.erase t).count t + 1 = vocab.count t
      have h1 := List.count_erase_self t vocab
      have h2 : 0 < vocab.count t := List.count_pos_iff.mpr h
      omega
  · intro h
    unfold removeTag
    simp [h]

/-- C4 witness: the theorem applied at a present and at an absent tag. -/
theorem removeTag_spec_witness :
    ((removeTag "b" ["a", "b"]).1 = true ∧
      (removeTag "b" ["a", "b"]).2.length + 1 = (["a", "b"] : List String).length ∧
      (removeTag "b" ["a", "b"]).2.count "b" + 1 = (["a", "b"] : List String).count "b") ∧
    removeTag "c" ["a", "b"] = (false, ["a", "b"]) :=
  ⟨(removeTag_spec "b" ["a", "b"]).1 (by decide), (removeTag_spec "c" ["a", "b"]).2 (by decide)⟩

/-- C5: the claim states a document is written back if and only if its text
changed, and in particular a document containing no occurrence of the
deleted tag is never rewritten.  The code sets `modified = true` whenever a
front-matter `tags: [...]` line with a non-empty bracket parses, even when
the filter removes nothing, so this document without any `x` occurrence is
flagged modified (and hence written back) with its text unchanged. -/
theorem removeTagFromFile_writes_unchanged :
    (removeTagFromFile "x" "---\ntags: [\x22a\x22]\n---\nbody").1 = true ∧
    (removeTagFromFile "x" "---\ntags: [\x22a\x22]\n---\nbody").2
      = "---\ntags: [\x22a\x22]\n---\nbody" := by decide

/-- C6 counterexample: the claim states the scan's new-tag filter compares
case-insensitively against the vocabulary.  For the vocabulary `["Alpha"]`
and a document containing `#alpha`, the code reports `alpha` as new while
the case-insensitive filter of the claim reports nothing. -/
theorem scanNewTags_not_case_insensitive :
    (scanForExistingTags [some "#alpha"] ["Alpha"] false).1 = ["alpha"] ∧
    specNewTagsCI [some "#alpha"] ["Alpha"] = [] := by decide

/-- C6 (amended): the scan's result is exactly the set of discovered
candidates that are not already present in the vocabulary, where presence
is decided by an exact (case-sensitive) string comparison. -/
theorem scanNewTags_exact_filter (docs : List (Option String)) (vocab : List String)
    (merge : Bool) (t : String) :
    t ∈ (scanForExistingTags docs vocab merge).1 ↔ t ∈ scanFound docs ∧ t ∉ vocab := by
  unfold scanForExistingTags
  simp [List.mem_filter]

/-- C7: scanning a corpus holding inline `#alpha` and `#beta` and a
front-matter list `tags: ["gamma", "alpha"]` against the empty vocabulary
discovers exactly `alpha`, `beta`, `gamma` -- on a single document and with
the front-matter in a separate document (deduplication across documents);
candidates are lower-cased and candidates of length at most one are
discarded. -/
theorem scanRoundTrip :
    (scanForExistingTags
        [some "#alpha #beta\ntags: [\x22gamma\x22, \x22alpha\x22]"] [] false).1
      = ["alpha", "beta", "gamma"] ∧
    (scanForExistingTags
        [some "#alpha #beta", some "tags: [\x22gamma\x22, \x22alpha\x22]"] [] false).1
      = ["alpha", "beta", "gamma"] ∧
    (scanForExistingTags [some "#A #Bc"] [] false).1 = ["bc"] := by decide

/-- C8: a scan over a corpus with unreadable documents (reads that throw)
returns exactly the scan of the readable documents: one failing document
never aborts the scan of the rest. -/
theorem scan_skips_unreadable (docs : List (Option String)) (vocab : List String)
    (merge : Bool) :
    scanForExistingTags docs vocab merge
      = scanForExistingTags ((docs.filterMap id).map some) vocab merge := by
  unfold scanForExistingTags
  rw [scanFound_skips_unreadable]

/-- C10: deleting a tag that is not in the vocabulary performs no document
rewrite at all: `handleTagDeletion` gates the file pass on `removeTag`
having returned success. -/
theorem handleTagDeletion_absent (tag : String) (vocab : List String) (docs : List String)
    (h : tag ∉ vocab) :
    handleTagDeletion tag vocab docs = (vocab, docs) := by
  simp [handleTagDeletion, removeTag, h]

/-- C10 witness: the theorem applied at a tag absent from the vocabulary. -/
theorem handleTagDeletion_absent_witness :
    handleTagDeletion "zzz" ["alpha"] ["#alpha note"] = (["alpha"], ["#alpha note"]) :=
  handleTagDeletion_absent "zzz" ["alpha"] ["#alpha note"] (by decide)

/-- C9: the relevance sort orders items by the comparator's relation --
descending score (1000 exact, 100 for a query-prefixed name, 10 for a name
containing the query, plus `min count 5`), ties by descending count, then
ascending name -- and is a permutation of the input; `sortTags` with the
relevance mode and no query degrades to the name sort; and for query `art`
over `art`, `artwork`, `painting` the order is `art`, `artwork`, `painting`
regardless of the usage counts. -/
theorem sortByRelevance_spec (q : String) (items : List (String × Nat)) :
    List.Sorted (relLe (jsToLower q)) (sortByRelevance q items) ∧
    (sortByRelevance q items).Perm items ∧
    (∀ its : List (String × Nat), sortTags SortKind.byRelevance none its = sortByName its) ∧
    (∀ c1 c2 c3 : Nat,
      sortByRelevance "art" [("painting", c3), ("artwork", c2), ("art", c1)]
        = [("art", c1), ("artwork", c2), ("painting", c3)]) := by
  refine ⟨List.sorted_insertionSort _ _, List.perm_insertionSort _ _, fun _ => rfl, ?_⟩
  have sArt : ∀ c : Nat, calculateRelevanceScore (jsToLower "art") "art" c = 1000 + min c 5 := by
    intro c
    unfold calculateRelevanceScore
    rw [if_pos (by decide)]
  have sAw : ∀ c : Nat,
      calculateRelevanceScore (jsToLower "artwork") "art" c = 100 + min c 5 := by
    intro c
    unfold calculateRelevanceScore
    rw [if_neg (by decide), if_pos (by decide)]
  have sPaint : ∀ c : Nat,
      calculateRelevanceScore (jsToLower "painting") "art" c = 0 + min c 5 := by
    intro c
    unfold calculateRelevanceScore
    rw [if_neg (by decide), if_neg (by decide), if_neg (by decide)]
  have hAwArt : ∀ c2 c1 : Nat, ¬ relLe "art" ("artwork", c2) ("art", c1) := by
    intro c2 c1 hrel
    unfold relLe lexLe relKey at hrel
    simp only [sArt, sAw] at hrel
    have m1 : min c1 5 ≤ 5 := Nat.min_le_right c1 5
    have m2 : min c2 5 ≤ 5 := Nat.min_le_right c2 5
    rcases hrel with hlt | ⟨heq, -⟩ <;> omega
  have hPArt : ∀ c3 c1 : Nat, ¬ relLe "art" ("painting", c3) ("art", c1) := by
    intro c3 c1 hrel
    unfold relLe lexLe relKey at hrel
    simp only [sArt, sPaint] at hrel
    have m1 : min c1 5 ≤ 5 := Nat.min_le_right c1 5
    have m3 : min c3 5 ≤ 5 := Nat.min_le_right c3 5
    rcases hrel with hlt | ⟨heq, -⟩ <;> omega
  have hPAw : ∀ c3 c2 : Nat, ¬ relLe "art" ("painting", c3) ("artwork", c2) := by
    intro c3 c2 hrel
    unfold relLe lexLe relKey at hrel
    simp only [sAw, sPaint] at hrel
    have m2 : min c2 5 ≤ 5 := Nat.min_le_right c2 5
    have m3 : min c3 5 ≤ 5 := Nat.min_le_right c3 5
    rcases hrel with hlt | ⟨heq, -⟩ <;> omega
  intro c1 c2 c3
  unfold sortByRelevance
  rw [show jsToLower "art" = "art" from by decide]
  simp only [List.insertionSort, List.orderedInsert]
  rw [if_neg (hAwArt c2 c1)]
  simp only [List.orderedInsert]
  rw [if_neg (hPArt c3 c1), if_neg (hPAw c3 c2)]
